import Mathlib

/-!
Shallow embedding of the ARM instruction decoder and executor of the
repository (src/arm_simulator/arm_decoder.py and
src/arm_simulator/arm_executor.py).

Conventions of the embedding:
* a Python bit extraction such as (w >> k) & m, with m = 2^j - 1, is written
  w / 2 ^ k % 2 ^ j over Nat (the two are equal on nonnegative integers);
* Python dictionaries of operands become a structure of Option Nat fields;
  reading a key that may be absent (a KeyError in Python) is modelled by
  Option bind, so the executor returns Option ARMCpu and a Python exception
  is the value none;
* Python list indexing registers[i] is List getElem?, and assignment is
  guarded by an index check (setReg), mirroring the IndexError behaviour;
* struct.pack of a value outside [0, 2^32) raises in Python and is none here;
* signed arithmetic (the ASR branch, and subtraction before masking) is done
  over Int with floor division Int.fdiv and Euclidean remainder, which match
  the semantics of the Python operators on negative integers.
-/

namespace ARMSim

/-- The instruction kinds assigned by ARMInstruction.decode. -/
inductive InstrType where
  | MOV | ADD | SUB | ADDEQ | SUBNE | CMP | AND | ORR | MUL
  | LDR | STR | B | BL
  | LSL | LSR | ASR | ROR
  | UNKNOWN | UNKNOWN_DATA_PROCESSING_IMM | UNKNOWN_DATA_PROCESSING_REG
deriving DecidableEq, Repr

/-- The operand dictionary self.operands: each key that a decode branch may
insert becomes an Option field; none means the key is absent. -/
structure Operands where
  rd : Option Nat
  rn : Option Nat
  rm : Option Nat
  rs : Option Nat
  operand2 : Option Nat
  shift_type : Option Nat
  shift_amount : Option Nat
  offset : Option Nat
deriving DecidableEq, Repr

/-- The empty operand dictionary. -/
def Operands.empty : Operands := ⟨none, none, none, none, none, none, none, none⟩

/-- The decoded instruction record (class ARMInstruction after decode). -/
structure ARMInstruction where
  binary_word : Nat
  instruction_type : InstrType
  operands : Operands
  condition_code : Nat
  set_flags : Bool
deriving DecidableEq, Repr

/-- Opcode-to-kind mapping of the data-processing immediate branch
(arm_decoder.py lines 45-60); the CMP case also forces set_flags to true,
so the function returns the pair (kind, set_flags). -/
def dpKindFlagsImm (opcode : Nat) (s : Bool) : InstrType × Bool :=
  if opcode = 4 then (.ADD, s)
  else if opcode = 2 then (.SUB, s)
  else if opcode = 13 then (.MOV, s)
  else if opcode = 10 then (.CMP, true)
  else if opcode = 0 then (.AND, s)
  else if opcode = 12 then (.ORR, s)
  else (.UNKNOWN_DATA_PROCESSING_IMM, s)

/-- Opcode-to-kind mapping of the data-processing register branch
(arm_decoder.py lines 114-129). -/
def dpKindFlagsReg (opcode : Nat) (s : Bool) : InstrType × Bool :=
  if opcode = 4 then (.ADD, s)
  else if opcode = 2 then (.SUB, s)
  else if opcode = 13 then (.MOV, s)
  else if opcode = 10 then (.CMP, true)
  else if opcode = 0 then (.AND, s)
  else if opcode = 12 then (.ORR, s)
  else (.UNKNOWN_DATA_PROCESSING_REG, s)

/-- Shift-type bits to standalone shift kind (arm_decoder.py lines 80-87;
the bits are two wide, so the final case is exactly shift_type_bits = 3). -/
def shiftKind (shift_type_bits : Nat) : InstrType :=
  if shift_type_bits = 0 then .LSL
  else if shift_type_bits = 1 then .LSR
  else if shift_type_bits = 2 then .ASR
  else .ROR

/-- Condition-based renaming of SUB to SUBNE and ADD to ADDEQ
(arm_decoder.py lines 131-135). -/
def condRename (cond : Nat) (ity : InstrType) : InstrType :=
  if cond = 1 ∧ ity = .SUB then .SUBNE
  else if cond = 0 ∧ ity = .ADD then .ADDEQ
  else ity

/-- ARMInstruction.decode (arm_decoder.py lines 12-168), as a pure function
from the 32-bit word to the finished record. -/
def decode (w : Nat) : ARMInstruction :=
  let cond := w / 2 ^ 28 % 16
  -- Multiply: bits 27-24 = 0000 and bits 7-4 = 1001
  if w / 2 ^ 24 % 16 = 0 ∧ w / 2 ^ 4 % 16 = 9 then
    { binary_word := w, instruction_type := .MUL, condition_code := cond,
      set_flags := w / 2 ^ 20 % 2 == 1,
      operands := { Operands.empty with
                      rd := some (w / 2 ^ 16 % 16),
                      rm := some (w % 16),
                      rs := some (w / 2 ^ 8 % 16) } }
  -- Data processing: bits 27-26 = 00
  else if w / 2 ^ 26 % 4 = 0 then
    let s := w / 2 ^ 20 % 2 == 1
    let opcode := w / 2 ^ 21 % 16
    let rn := w / 2 ^ 16 % 16
    let rd := w / 2 ^ 12 % 16
    if w / 2 ^ 25 % 2 = 1 then
      -- immediate operand: 8-bit immediate rotated right by 2 * rotate_imm;
      -- in Python the mask binds tighter than the bitwise or, so the
      -- expression is (imm8 >> 2r) | ((imm8 << (32 - 2r)) & 0xFFFFFFFF)
      let rotate_imm := w / 2 ^ 8 % 16
      let imm8 := w % 256
      let operand2 := imm8 / 2 ^ (2 * rotate_imm) ||| (imm8 * 2 ^ (32 - 2 * rotate_imm)) % 2 ^ 32
      let ks := dpKindFlagsImm opcode s
      { binary_word := w, instruction_type := condRename cond ks.1,
        condition_code := cond, set_flags := ks.2,
        operands := { Operands.empty with
                        rd := some rd,
                        rn := some rn,
                        operand2 := some operand2 } }
    else
      let rm := w % 16
      let shift_type_bits := w / 2 ^ 5 % 4
      if w / 2 ^ 4 % 2 = 0 then
        -- immediate shift amount
        let shift_amount := w / 2 ^ 7 % 32
        if opcode = 13 ∧ shift_type_bits = 3 ∧ rn = 0 ∧ rm = rd then
          -- special case for ROR #Imm with Rm = Rd
          { binary_word := w, instruction_type := .ROR, condition_code := cond,
            set_flags := s,
            operands := { Operands.empty with
                            rd := some rd,
                            rm := some rm,
                            shift_amount := some shift_amount,
                            shift_type := some shift_type_bits,
                            rn := some 0 } }
        else if rn = 0 ∧ opcode = 13 then
          -- standalone shift instruction
          { binary_word := w, instruction_type := shiftKind shift_type_bits,
            condition_code := cond, set_flags := s,
            operands := { Operands.empty with
                            rd := some rd,
                            rm := some rm,
                            shift_amount := some shift_amount,
                            shift_type := some shift_type_bits,
                            rn := some 0 } }
        else
          let ks := dpKindFlagsReg opcode s
          { binary_word := w, instruction_type := condRename cond ks.1,
            condition_code := cond, set_flags := ks.2,
            operands := { Operands.empty with
                            rd := some rd,
                            rn := some rn,
                            rm := some rm,
                            shift_amount := some shift_amount,
                            shift_type := some shift_type_bits } }
      else
        -- register-specified shift amount
        let rs := w / 2 ^ 8 % 16
        if rn = 0 ∧ opcode = 13 then
          { binary_word := w, instruction_type := shiftKind shift_type_bits,
            condition_code := cond, set_flags := s,
            operands := { Operands.empty with
                            rd := some rd,
                            rm := some rm,
                            rs := some rs,
                            shift_type := some shift_type_bits,
                            rn := some 0 } }
        else
          let ks := dpKindFlagsReg opcode s
          { binary_word := w, instruction_type := condRename cond ks.1,
            condition_code := cond, set_flags := ks.2,
            operands := { Operands.empty with
                            rd := some rd,
                            rn := some rn,
                            rm := some rm,
                            rs := some rs,
                            shift_type := some shift_type_bits } }
  -- Load/store: bits 27-26 = 01
  else if w / 2 ^ 26 % 4 = 1 then
    { binary_word := w,
      instruction_type := if w / 2 ^ 20 % 2 = 1 then .LDR else .STR,
      condition_code := cond, set_flags := false,
      operands := { Operands.empty with
                      rd := some (w / 2 ^ 12 % 16),
                      rn := some (w / 2 ^ 16 % 16),
                      offset := some (w % 4096) } }
  -- Branch: bits 27-25 = 101
  else if w / 2 ^ 25 % 8 = 5 then
    { binary_word := w,
      instruction_type := if w / 2 ^ 24 % 2 = 1 then .BL else .B,
      condition_code := cond, set_flags := false,
      operands := { Operands.empty with offset := some (w % 2 ^ 24) } }
  else
    { binary_word := w, instruction_type := .UNKNOWN, condition_code := cond,
      set_flags := false, operands := Operands.empty }

/-- The CPSR flag dictionary of ARMCpu; in Python the values are the
integers 0 and 1. -/
structure CPSR where
  n : Nat
  z : Nat
  c : Nat
  v : Nat
deriving DecidableEq, Repr

/-- The CPU state: 16 registers, flags, and a byte-addressable memory
(a bytearray in Python, here a list of byte values). -/
structure ARMCpu where
  registers : List Nat
  cpsr : CPSR
  memory : List Nat
deriving DecidableEq, Repr

/-- ARMCpu.__init__: 16 zero registers, clear flags, 1024 zero bytes. -/
def initCpu : ARMCpu :=
  { registers := List.replicate 16 0,
    cpsr := ⟨0, 0, 0, 0⟩,
    memory := List.replicate 1024 0 }

/-- ARMCpu._update_flags: N and Z from the result masked to 32 bits,
C and V only when a value is supplied.  The result argument is an integer
(Python ints may be negative here, from subtraction). -/
def updateFlags (cpsr : CPSR) (result : Int) (carry_out overflow : Option Bool) : CPSR :=
  let result_32bit := (result % 2 ^ 32).toNat
  { n := if result_32bit / 2 ^ 31 % 2 = 1 then 1 else 0,
    z := if result_32bit = 0 then 1 else 0,
    c := match carry_out with
         | none => cpsr.c
         | some b => if b then 1 else 0,
    v := match overflow with
         | none => cpsr.v
         | some b => if b then 1 else 0 }

/-- The Python expression (x >> 31) & 1 on a possibly negative int:
shifting is floor division and the conjunction extracts the parity of the
floored quotient (Python bitwise operators act on two's complement). -/
def intSignBit (x : Int) : Nat := ((Int.fdiv x (2 ^ 31)) % 2).toNat

/-- ARMCpu._get_operand2 (arm_executor.py lines 24-69).  Returns none
exactly when Python would raise (an out-of-range register index). -/
def getOperand2 (instruction : ARMInstruction) (registers : List Nat) : Option Nat :=
  match instruction.operands.operand2 with
  | some v => some v
  | none =>
    match instruction.operands.rm with
    | none => some 0
    | some rm =>
      match registers[rm]? with
      | none => none
      | some rm_value =>
        match instruction.operands.shift_type with
        | none => some rm_value
        | some shift_type =>
          let amt : Option Nat :=
            match instruction.operands.shift_amount with
            | some a => some a
            | none =>
              match instruction.operands.rs with
              | some rs => registers[rs]?
              | none => some 0
          match amt with
          | none => none
          | some amt0 =>
            -- actual_shift_amount &= 0x1F
            let n := amt0 % 32
            if shift_type = 0 then
              -- LSL: plain left shift, no masking in this function
              some (rm_value * 2 ^ n)
            else if shift_type = 1 then
              -- LSR
              some (rm_value / 2 ^ n)
            else if shift_type = 2 then
              -- ASR: reinterpret as signed when the top bit is set
              if rm_value / 2 ^ 31 % 2 = 1 then
                some (((Int.fdiv ((rm_value % 2 ^ 32 : Nat) - (2 ^ 32 : Int)) (2 ^ n)) % 2 ^ 32).toNat)
              else
                some (rm_value / 2 ^ n)
            else if shift_type = 3 then
              -- ROR: here the whole disjunction is masked
              some ((rm_value / 2 ^ n ||| rm_value * 2 ^ (32 - n)) % 2 ^ 32)
            else
              some rm_value

/-- The condition gate at the top of execute_instruction
(arm_executor.py lines 72-79): only NE and EQ are checked against Z. -/
def condPasses (cond z : Nat) : Bool :=
  if cond = 1 then z != 1
  else if cond = 0 then z != 0
  else true

/-- Python list assignment registers[i] = v: an IndexError (none) when the
index is out of range, otherwise the updated list. -/
def setReg (registers : List Nat) (i v : Nat) : Option (List Nat) :=
  if i < registers.length then some (registers.set i v) else none

/-- struct.unpack of memory[address : address+4] as a little-endian
unsigned 32-bit value; none when fewer than four bytes are available. -/
def readMem32 (memory : List Nat) (address : Nat) : Option Nat :=
  match memory[address]?, memory[address + 1]?, memory[address + 2]?, memory[address + 3]? with
  | some b0, some b1, some b2, some b3 =>
      some (b0 + b1 * 2 ^ 8 + b2 * 2 ^ 16 + b3 * 2 ^ 24)
  | _, _, _, _ => none

/-- struct.pack of value into memory[address : address+4], little-endian. -/
def writeMem32 (memory : List Nat) (address value : Nat) : List Nat :=
  ((((memory.set address (value % 256)).set (address + 1) (value / 2 ^ 8 % 256)).set
    (address + 2) (value / 2 ^ 16 % 256)).set (address + 3) (value / 2  ^ 24 % 256))

/-- ARMCpu.execute_instruction (arm_executor.py lines 71-236).  The result
is none exactly when the Python method would raise; a skipped or reported
instruction returns the state unchanged. -/
def execute_instruction (instruction : ARMInstruction) (cpu : ARMCpu) : Option ARMCpu :=
  if condPasses instruction.condition_code cpu.cpsr.z = false then
    some cpu
  else
    match instruction.instruction_type with
    | .MOV => do
        let rd ← instruction.operands.rd
        let operand2 ← getOperand2 instruction cpu.registers
        let regs ← setReg cpu.registers rd (operand2 % 2 ^ 32)
        some { cpu with
                 registers := regs,
                 cpsr := if instruction.set_flags then
                         updateFlags cpu.cpsr (operand2 : Int) none none
                       else cpu.cpsr }
    | .LDR => do
        let rd ← instruction.operands.rd
        let rn ← instruction.operands.rn
        let offset ← instruction.operands.offset
        let rnv ← cpu.registers[rn]?
        let address := rnv + offset
        if address < cpu.memory.length - 3 then do
          let value ← readMem32 cpu.memory address
          let regs ← setReg cpu.registers rd value
          some { cpu with registers := regs }
        else
          some cpu
    | .STR => do
        let rd ← instruction.operands.rd
        let rn ← instruction.operands.rn
        let offset ← instruction.operands.offset
        let rnv ← cpu.registers[rn]?
        let address := rnv + offset
        let value ← cpu.registers[rd]?
        if address < cpu.memory.length - 3 then
          if value < 2 ^ 32 then
            some { cpu with memory := writeMem32 cpu.memory address value }
          else
            none
        else
          some cpu
    | .ADD | .ADDEQ => do
        let rd ← instruction.operands.rd
        let rn ← instruction.operands.rn
        let operand2 ← getOperand2 instruction cpu.registers
        let val_rn ← cpu.registers[rn]?
        let result := val_rn + operand2
        let regs ← setReg cpu.registers rd (result % 2 ^ 32)
        let cpsr :=
          if instruction.set_flags then
            let carry_out := decide (result > 2 ^ 32 - 1)
            let rn_sign := val_rn / 2 ^ 31 % 2
            let op2_sign := operand2 / 2 ^ 31 % 2
            let result_sign := result / 2 ^ 31 % 2
            let overflow := rn_sign == op2_sign && rn_sign != result_sign
            updateFlags cpu.cpsr (result : Int) (some carry_out) (some overflow)
          else cpu.cpsr
        some { cpu with registers := regs, cpsr := cpsr }
    | .SUB | .SUBNE => do
        let rd ← instruction.operands.rd
        let rn ← instruction.operands.rn
        let operand2 ← getOperand2 instruction cpu.registers
        let val_rn ← cpu.registers[rn]?
        let result : Int := (val_rn : Int) - (operand2 : Int)
        let regs ← setReg cpu.registers rd ((result % 2 ^ 32).toNat)
        let cpsr :=
          if instruction.set_flags then
            let carry_out := decide (operand2 ≤ val_rn)
            let rn_sign := val_rn / 2 ^ 31 % 2
            let op2_sign := operand2 / 2 ^ 31 % 2
            let result_sign := intSignBit result
            let overflow := rn_sign != op2_sign && rn_sign != result_sign
            updateFlags cpu.cpsr result (some carry_out) (some overflow)
          else cpu.cpsr
        some { cpu with registers := regs, cpsr := cpsr }
    | .MUL => do
        let rd ← instruction.operands.rd
        let rm ← instruction.operands.rm
        let rs ← instruction.operands.rs
        let rmv ← cpu.registers[rm]?
        let rsv ← cpu.registers[rs]?
        let result := rmv * rsv
        let regs ← setReg cpu.registers rd (result % 2 ^ 32)
        some { cpu with
                 registers := regs,
                 cpsr := if instruction.set_flags then
                         updateFlags cpu.cpsr (result : Int) none none
                       else cpu.cpsr }
    | .AND => do
        let rd ← instruction.operands.rd
        let rn ← instruction.operands.rn
        let operand2 ← getOperand2 instruction cpu.registers
        let rnv ← cpu.registers[rn]?
        let result := rnv &&& operand2
        let regs ← setReg cpu.registers rd (result % 2 ^ 32)
        some { cpu with
                 registers := regs,
                 cpsr := if instruction.set_flags then
                         updateFlags cpu.cpsr (result : Int) none none
                       else cpu.cpsr }
    | .ORR => do
        let rd ← instruction.operands.rd
        let rn ← instruction.operands.rn
        let operand2 ← getOperand2 instruction cpu.registers
        let rnv ← cpu.registers[rn]?
        let result := rnv ||| operand2
        let regs ← setReg cpu.registers rd (result % 2 ^ 32)
        some { cpu with
                 registers := regs,
                 cpsr := if instruction.set_flags then
                         updateFlags cpu.cpsr (result : Int) none none
                       else cpu.cpsr }
    | .CMP => do
        let rn ← instruction.operands.rn
        let operand2 ← getOperand2 instruction cpu.registers
        let val_rn ← cpu.registers[rn]?
        let result : Int := (val_rn : Int) - (operand2 : Int)
        let carry_out := decide (operand2 ≤ val_rn)
        let rn_sign := val_rn / 2 ^ 31 % 2
        let op2_sign := operand2 / 2 ^ 31 % 2
        let result_sign := intSignBit result
        let overflow := rn_sign != op2_sign && rn_sign != result_sign
        some { cpu with cpsr := updateFlags cpu.cpsr result (some carry_out) (some overflow) }
    | .LSL | .LSR | .ASR | .ROR => do
        let rd ← instruction.operands.rd
        let shifted_value ← getOperand2 instruction cpu.registers
        let regs ← setReg cpu.registers rd (shifted_value % 2 ^ 32)
        some { cpu with
                 registers := regs,
                 cpsr := if instruction.set_flags then
                         updateFlags cpu.cpsr (shifted_value : Int) none none
                       else cpu.cpsr }
    | .B | .BL => do
        let _ ← instruction.operands.offset
        some cpu
    | .UNKNOWN | .UNKNOWN_DATA_PROCESSING_IMM | .UNKNOWN_DATA_PROCESSING_REG =>
        some cpu

end ARMSim
namespace ARMSim

/-- Reference rotate, following the spec: a 32-bit rotate right of v by n,
the bits rotated out re-entering at the top. -/
def ror32_spec (v n : Nat) : Nat :=
  (v / 2 ^ (n % 32) + v % 2 ^ (n % 32) * 2 ^ (32 - n % 32)) % 2 ^ 32

set_option maxRecDepth 100000 in
theorem rotImm_eq_ror32_spec : ∀ i < 256, ∀ r < 16,
    (i / 2 ^ (2 * r) ||| (i * 2 ^ (32 - 2 * r)) % 2 ^ 32) = ror32_spec i (2 * r) := by decide

theorem lor_mul_two_pow_mod (v : Nat) (hv : v < 2 ^ 32) :
    (v ||| v * 2 ^ 32) % 2 ^ 32 = v := by
  apply Nat.eq_of_testBit_eq
  intro i
  rw [Nat.testBit_mod_two_pow, Nat.testBit_or]
  have hz : Nat.testBit (v * 2 ^ 32) i =
      (if i < 32 then Nat.testBit 0 i else Nat.testBit v (i - 32)) := by
    rw [Nat.mul_comm, ← Nat.add_zero (2 ^ 32 * v),
      Nat.testBit_mul_pow_two_add _ (Nat.pos_pow_of_pos 32 (by norm_num))]
  rcases Nat.lt_or_ge i 32 with h | h
  · rw [hz, if_pos h, Nat.zero_testBit]
    simp [h]
  · have h1 : Nat.testBit v i = false :=
      Nat.testBit_lt_two_pow (lt_of_lt_of_le hv (Nat.pow_le_pow_right (by norm_num) h))
    rw [hz, if_neg (Nat.not_lt.mpr h), h1]
    simp [Nat.not_lt.mpr h]

/-- C1: claimed, the operand2 resolver masks the LSL result to 32 bits.  In the
code the LSL branch returns the unmasked left shift, so at rm value 2^31 and
shift 1 the resolver returns 2^32, violating the claimed bound. -/
theorem C1_counterexample :
    (decode 0xE0821080).operands.shift_type = some 0 ∧
    getOperand2 (decode 0xE0821080) (2 ^ 31 :: List.replicate 15 0) = some (2 ^ 32) ∧
    ¬ ((2 ^ 32 : Nat) < 2 ^ 32) := ⟨by decide, by decide, by norm_num⟩

/-- C1 amended: for an LSL register operand the resolver returns the plain
(unmasked) product rm_value * 2 ^ (amount mod 32); masking to 32 bits happens
only when the executor writes the destination register. -/
theorem C1_amended (ins : ARMInstruction) (regs : List Nat) (rm v a : Nat)
    (hop2 : ins.operands.operand2 = none) (hrm : ins.operands.rm = some rm)
    (hst : ins.operands.shift_type = some 0) (hv : regs[rm]? = some v)
    (hamt : ins.operands.shift_amount = some a ∨
      (ins.operands.shift_amount = none ∧
        ∃ rs, ins.operands.rs = some rs ∧ regs[rs]? = some a)) :
    getOperand2 ins regs = some (v * 2 ^ (a % 32)) := by
  unfold getOperand2
  rcases hamt with h | ⟨h1, rs, h2, h3⟩
  · simp only [hop2, hrm, hv, hst, h, if_pos trivial]
  · simp only [hop2, hrm, hv, hst, h1, h2, h3, if_pos trivial]

theorem C1_amended_witness :
    getOperand2 (decode 0xE0821080) (2 ^ 31 :: List.replicate 15 0) = some (2 ^ 31 * 2 ^ (1 % 32)) :=
  C1_amended (decode 0xE0821080) _ 0 (2 ^ 31) 1 (by decide) (by decide) (by decide)
    (by decide) (Or.inl (by decide))

/-- C2: the claim that no instruction ever writes register 15 fails: the word
0xE3A0F001 decodes to MOV with destination register 15, and executing it from
the initial state changes register 15 from 0 to 1. -/
theorem C2_counterexample :
    (execute_instruction (decode 0xE3A0F001) initCpu).map (fun c => c.registers[15]?) =
      some (some 1) ∧ initCpu.registers[15]? = some 0 := ⟨by decide, by decide⟩

/-- C4: the condition gate fails exactly for EQ with Z = 0 or NE with Z = 1,
and a failed gate leaves the whole state unchanged. -/
theorem C4_condition_gate (ins : ARMInstruction) (cpu : ARMCpu) :
    (condPasses ins.condition_code cpu.cpsr.z = false ↔
      (ins.condition_code = 0 ∧ cpu.cpsr.z = 0) ∨
      (ins.condition_code = 1 ∧ cpu.cpsr.z = 1)) ∧
    (condPasses ins.condition_code cpu.cpsr.z = false →
      execute_instruction ins cpu = some cpu) := by
  constructor
  · unfold condPasses
    by_cases h1 : ins.condition_code = 1
    · simp [h1]
    · by_cases h0 : ins.condition_code = 0
      · simp [h0, h1]
      · simp [h0, h1]
  · intro h
    unfold execute_instruction
    rw [if_pos h]

def cpuZ1 : ARMCpu := { initCpu with cpsr := ⟨0, 1, 0, 0⟩ }

theorem C4_witness :
    condPasses (decode 0x10400005).condition_code cpuZ1.cpsr.z = false ∧
    execute_instruction (decode 0x10400005) cpuZ1 = some cpuZ1 := by
  have h := C4_condition_gate (decode 0x10400005) cpuZ1
  have hfail : condPasses (decode 0x10400005).condition_code cpuZ1.cpsr.z = false :=
    h.1.mpr (Or.inr ⟨by decide, by decide⟩)
  exact ⟨hfail, h.2 hfail⟩

/-- C6: the decoded immediate operand equals the reference 32-bit rotate right
of the 8-bit immediate by twice the rotate field, and rotate 0 is the
identity. -/
theorem C6_rotate_immediate (w : Nat) (hdp : w / 2 ^ 26 % 4 = 0)
    (himm : w / 2 ^ 25 % 2 = 1) :
    (decode w).operands.operand2 =
      some (ror32_spec (w % 256) (2 * (w / 2 ^ 8 % 16))) ∧
    ror32_spec (w % 256) 0 = w % 256 := by
  constructor
  · have hmul : ¬ (w / 2 ^ 24 % 16 = 0 ∧ w / 2 ^ 4 % 16 = 9) := by omega
    simp only [decode]
    rw [if_neg hmul, if_pos hdp, if_pos himm]
    simp only []
    rw [rotImm_eq_ror32_spec (w % 256) (Nat.mod_lt _ (by norm_num))
      (w / 2 ^ 8 % 16) (Nat.mod_lt _ (by norm_num))]
  · show (w % 256 / 2 ^ (0 % 32) + w % 256 % 2 ^ (0 % 32) * 2 ^ (32 - 0 % 32)) % 2 ^ 32 = w % 256
    norm_num
    omega

theorem C6_witness :
    (decode 0xE3A00110).operands.operand2 =
      some (ror32_spec (0xE3A00110 % 256) (2 * (0xE3A00110 / 2 ^ 8 % 16))) ∧
    ror32_spec (0xE3A00110 % 256) 0 = 0xE3A00110 % 256 :=
  C6_rotate_immediate 0xE3A00110 (by norm_num) (by norm_num)

/-- C7: a ROR-shift operand with resolved shift amount 0 returns the register
value unchanged. -/
theorem C7_ror_zero (ins : ARMInstruction) (regs : List Nat) (rm a v : Nat)
    (hop2 : ins.operands.operand2 = none) (hrm : ins.operands.rm = some rm)
    (hst : ins.operands.shift_type = some 3) (hsa : ins.operands.shift_amount = some a)
    (ha : a % 32 = 0) (hv : regs[rm]? = some v) (hv32 : v < 2 ^ 32) :
    getOperand2 ins regs = some v := by
  unfold getOperand2
  simp only [hop2, hrm, hv, hst, hsa, ha]
  norm_num
  exact lor_mul_two_pow_mod v hv32

theorem C7_witness :
    getOperand2 (decode 0xE1A01061) (0 :: 0xDEADBEEF :: List.replicate 14 0) = some 0xDEADBEEF := by
  apply C7_ror_zero _ _ 1 0 _ (by decide) (by decide) (by decide) (by decide) (by decide)
    (by decide) (by norm_num)

/-- C8: decode is total and always lands in the enumerated kind set. -/
theorem C8_decode_total (w : Nat) (_hw : w < 2 ^ 32) :
    (decode w).instruction_type ∈
      ([.MOV, .ADD, .SUB, .ADDEQ, .SUBNE, .CMP, .AND, .ORR, .MUL, .LDR, .STR,
        .B, .BL, .LSL, .LSR, .ASR, .ROR, .UNKNOWN, .UNKNOWN_DATA_PROCESSING_IMM,
        .UNKNOWN_DATA_PROCESSING_REG] : List InstrType) := by
  cases h : (decode w).instruction_type <;> simp

theorem C8_witness :
    (0xE3A00010 : Nat) < 2 ^ 32 ∧
    (decode 0xE3A00010).instruction_type ∈
      ([.MOV, .ADD, .SUB, .ADDEQ, .SUBNE, .CMP, .AND, .ORR, .MUL, .LDR, .STR,
        .B, .BL, .LSL, .LSR, .ASR, .ROR, .UNKNOWN, .UNKNOWN_DATA_PROCESSING_IMM,
        .UNKNOWN_DATA_PROCESSING_REG] : List InstrType) :=
  ⟨by norm_num, C8_decode_total 0xE3A00010 (by norm_num)⟩

end ARMSim
namespace ARMSim

theorem setReg_eq_some {regs : List Nat} {i v : Nat} {regs' : List Nat}
    (h : setReg regs i v = some regs') : regs' = regs.set i v := by
  unfold setReg at h
  split at h
  · cases h; rfl
  · exact Option.noConfusion h

theorem int_emod_toNat_lt (x : Int) : ((x % 2 ^ 32).toNat) < 2 ^ 32 := by
  have h1 : 0 ≤ x % 2 ^ 32 := Int.emod_nonneg x (by norm_num)
  have h2 : x % 2 ^ 32 < 2 ^ 32 := Int.emod_lt_of_pos x (by norm_num)
  omega

theorem cpsr_flag_shape (cpu : ARMCpu) (ins : ARMInstruction) (f : CPSR) (k : InstrType) :
    (if ins.set_flags = true then f else cpu.cpsr) = cpu.cpsr ∨
      ins.set_flags = true ∨ ins.instruction_type = k := by
  cases hsf : ins.set_flags
  · exact Or.inl (by simp)
  · exact Or.inr (Or.inl rfl)

/-- Structural description of one execution step: the register file is either
unchanged or receives a single destination write whose value is masked to 32
bits or read from memory; the flags change only when set_flags is on or the
kind is CMP; memory is unchanged except for a single bounded 32-bit store. -/
theorem execute_shape (ins : ARMInstruction) (cpu cpu' : ARMCpu)
    (hex : execute_instruction ins cpu = some cpu') :
    (cpu'.registers = cpu.registers ∨
      ∃ rd v, ins.operands.rd = some rd ∧ cpu'.registers = cpu.registers.set rd v ∧
        (v < 2 ^ 32 ∨ ∃ a, readMem32 cpu.memory a = some v)) ∧
    (cpu'.cpsr = cpu.cpsr ∨ ins.set_flags = true ∨ ins.instruction_type = .CMP) ∧
    (cpu'.memory = cpu.memory ∨
      ∃ a v, v < 2 ^ 32 ∧ cpu'.memory = writeMem32 cpu.memory a v) := by
  unfold execute_instruction at hex
  split at hex
  · cases hex; exact ⟨Or.inl rfl, Or.inl rfl, Or.inl rfl⟩
  split at hex <;>
    (try simp only [Option.bind_eq_bind, Option.bind_eq_some, Option.some.injEq] at hex)
  -- MOV
  · obtain ⟨rd, hrd, op2, hop2, regs, hregs, hcpu⟩ := hex
    subst hcpu
    exact ⟨Or.inr ⟨rd, _, hrd, setReg_eq_some hregs, Or.inl (Nat.mod_lt _ (by norm_num))⟩,
      cpsr_flag_shape cpu ins _ _, Or.inl rfl⟩
  -- LDR
  · obtain ⟨rd, hrd, rn, hrn, off, hoff, rnv, hrnv, hrest⟩ := hex
    split at hrest
    · simp only [Option.bind_eq_bind, Option.bind_eq_some, Option.some.injEq] at hrest
      obtain ⟨v, hv, regs, hregs, hcpu⟩ := hrest
      subst hcpu
      exact ⟨Or.inr ⟨rd, v, hrd, setReg_eq_some hregs, Or.inr ⟨_, hv⟩⟩, Or.inl rfl, Or.inl rfl⟩
    · cases hrest; exact ⟨Or.inl rfl, Or.inl rfl, Or.inl rfl⟩
  -- STR
  · obtain ⟨rd, hrd, rn, hrn, off, hoff, rnv, hrnv, v, hv, hrest⟩ := hex
    split at hrest
    · split at hrest
      · rename_i hv32
        simp only [Option.some.injEq] at hrest
        subst hrest
        exact ⟨Or.inl rfl, Or.inl rfl, Or.inr ⟨rnv + off, v, hv32, rfl⟩⟩
      · exact Option.noConfusion hrest
    · cases hrest; exact ⟨Or.inl rfl, Or.inl rfl, Or.inl rfl⟩
  -- ADD
  · obtain ⟨rd, hrd, rn, hrn, op2, hop2, rnv, hrnv, regs, hregs, hcpu⟩ := hex
    subst hcpu
    exact ⟨Or.inr ⟨rd, _, hrd, setReg_eq_some hregs, Or.inl (Nat.mod_lt _ (by norm_num))⟩,
      cpsr_flag_shape cpu ins _ _, Or.inl rfl⟩
  -- ADDEQ
  · obtain ⟨rd, hrd, rn, hrn, op2, hop2, rnv, hrnv, regs, hregs, hcpu⟩ := hex
    subst hcpu
    exact ⟨Or.inr ⟨rd, _, hrd, setReg_eq_some hregs, Or.inl (Nat.mod_lt _ (by norm_num))⟩,
      cpsr_flag_shape cpu ins _ _, Or.inl rfl⟩
  -- SUB
  · obtain ⟨rd, hrd, rn, hrn, op2, hop2, rnv, hrnv, regs, hregs, hcpu⟩ := hex
    subst hcpu
    exact ⟨Or.inr ⟨rd, _, hrd, setReg_eq_some hregs, Or.inl (int_emod_toNat_lt _)⟩,
      cpsr_flag_shape cpu ins _ _, Or.inl rfl⟩
  -- SUBNE
  · obtain ⟨rd, hrd, rn, hrn, op2, hop2, rnv, hrnv, regs, hregs, hcpu⟩ := hex
    subst hcpu
    exact ⟨Or.inr ⟨rd, _, hrd, setReg_eq_some hregs, Or.inl (int_emod_toNat_lt _)⟩,
      cpsr_flag_shape cpu ins _ _, Or.inl rfl⟩
  -- MUL
  · obtain ⟨rd, hrd, rm, hrm, rs, hrs, rmv, hrmv, rsv, hrsv, regs, hregs, hcpu⟩ := hex
    subst hcpu
    exact ⟨Or.inr ⟨rd, _, hrd, setReg_eq_some hregs, Or.inl (Nat.mod_lt _ (by norm_num))⟩,
      cpsr_flag_shape cpu ins _ _, Or.inl rfl⟩
  -- AND
  · obtain ⟨rd, hrd, rn, hrn, op2, hop2, rnv, hrnv, regs, hregs, hcpu⟩ := hex
    subst hcpu
    exact ⟨Or.inr ⟨rd, _, hrd, setReg_eq_some hregs, Or.inl (Nat.mod_lt _ (by norm_num))⟩,
      cpsr_flag_shape cpu ins _ _, Or.inl rfl⟩
  -- ORR
  · obtain ⟨rd, hrd, rn, hrn, op2, hop2, rnv, hrnv, regs, hregs, hcpu⟩ := hex
    subst hcpu
    exact ⟨Or.inr ⟨rd, _, hrd, setReg_eq_some hregs, Or.inl (Nat.mod_lt _ (by norm_num))⟩,
      cpsr_flag_shape cpu ins _ _, Or.inl rfl⟩
  -- CMP
  · rename_i heq
    obtain ⟨rn, hrn, op2, hop2, rnv, hrnv, hcpu⟩ := hex
    subst hcpu
    exact ⟨Or.inl rfl, Or.inr (Or.inr heq), Or.inl rfl⟩
  -- LSL
  · obtain ⟨rd, hrd, sv, hsv, regs, hregs, hcpu⟩ := hex
    subst hcpu
    exact ⟨Or.inr ⟨rd, _, hrd, setReg_eq_some hregs, Or.inl (Nat.mod_lt _ (by norm_num))⟩,
      cpsr_flag_shape cpu ins _ _, Or.inl rfl⟩
  -- LSR
  · obtain ⟨rd, hrd, sv, hsv, regs, hregs, hcpu⟩ := hex
    subst hcpu
    exact ⟨Or.inr ⟨rd, _, hrd, setReg_eq_some hregs, Or.inl (Nat.mod_lt _ (by norm_num))⟩,
      cpsr_flag_shape cpu ins _ _, Or.inl rfl⟩
  -- ASR
  · obtain ⟨rd, hrd, sv, hsv, regs, hregs, hcpu⟩ := hex
    subst hcpu
    exact ⟨Or.inr ⟨rd, _, hrd, setReg_eq_some hregs, Or.inl (Nat.mod_lt _ (by norm_num))⟩,
      cpsr_flag_shape cpu ins _ _, Or.inl rfl⟩
  -- ROR
  · obtain ⟨rd, hrd, sv, hsv, regs, hregs, hcpu⟩ := hex
    subst hcpu
    exact ⟨Or.inr ⟨rd, _, hrd, setReg_eq_some hregs, Or.inl (Nat.mod_lt _ (by norm_num))⟩,
      cpsr_flag_shape cpu ins _ _, Or.inl rfl⟩
  -- B
  · obtain ⟨off, hoff, hcpu⟩ := hex
    subst hcpu
    exact ⟨Or.inl rfl, Or.inl rfl, Or.inl rfl⟩
  -- BL
  · obtain ⟨off, hoff, hcpu⟩ := hex
    subst hcpu
    exact ⟨Or.inl rfl, Or.inl rfl, Or.inl rfl⟩
  -- UNKNOWN
  · subst hex
    exact ⟨Or.inl rfl, Or.inl rfl, Or.inl rfl⟩
  -- UNKNOWN_DATA_PROCESSING_IMM
  · subst hex
    exact ⟨Or.inl rfl, Or.inl rfl, Or.inl rfl⟩
  -- UNKNOWN_DATA_PROCESSING_REG
  · subst hex
    exact ⟨Or.inl rfl, Or.inl rfl, Or.inl rfl⟩

end ARMSim
namespace ARMSim

/-- C2: amended. Branches write no register, and every register-writing kind
writes only the destination named by the rd operand; register 15 is therefore
unchanged by every record whose rd operand is not 15.  (The original claim is
false because a record can name rd = 15.) -/
theorem C2_amended (ins : ARMInstruction) (cpu cpu' : ARMCpu)
    (hrd : ins.operands.rd ≠ some 15)
    (hex : execute_instruction ins cpu = some cpu') :
    cpu'.registers[15]? = cpu.registers[15]? := by
  rcases (execute_shape ins cpu cpu' hex).1 with h | ⟨rd, v, h1, h2, h3⟩
  · rw [h]
  · rw [h2]
    apply List.getElem?_set_ne
    intro he
    rw [he] at h1
    exact hrd h1

def cpuMovR0 : ARMCpu := { initCpu with registers := initCpu.registers.set 0 16 }

set_option maxRecDepth 10000 in
theorem C2_amended_witness :
    cpuMovR0.registers[15]? = initCpu.registers[15]? :=
  C2_amended (decode 0xE3A00010) initCpu cpuMovR0 (by decide) (by decide)

theorem readMem32_lt {memory : List Nat} (hmem : ∀ b ∈ memory, b < 256) {a v : Nat}
    (h : readMem32 memory a = some v) : v < 2 ^ 32 := by
  unfold readMem32 at h
  split at h
  · rename_i b0 b1 b2 b3 hb0 hb1 hb2 hb3
    cases h
    have h0 := hmem b0 (List.getElem?_mem hb0)
    have h1 := hmem b1 (List.getElem?_mem hb1)
    have h2 := hmem b2 (List.getElem?_mem hb2)
    have h3 := hmem b3 (List.getElem?_mem hb3)
    omega
  · exact Option.noConfusion h

theorem writeMem32_bytes_lt {memory : List Nat} (hmem : ∀ b ∈ memory, b < 256) (a v : Nat) :
    ∀ b ∈ writeMem32 memory a v, b < 256 := by
  intro b hb
  unfold writeMem32 at hb
  rcases List.mem_or_eq_of_mem_set hb with hb3 | rfl
  · rcases List.mem_or_eq_of_mem_set hb3 with hb2 | rfl
    · rcases List.mem_or_eq_of_mem_set hb2 with hb1 | rfl
      · rcases List.mem_or_eq_of_mem_set hb1 with hb0 | rfl
        · exact hmem b hb0
        · exact Nat.mod_lt _ (by norm_num)
      · exact Nat.mod_lt _ (by norm_num)
    · exact Nat.mod_lt _ (by norm_num)
  · exact Nat.mod_lt _ (by norm_num)

/-- C10: executing any record preserves the 32-bit range invariant of the
register file (each write is masked or loaded from byte memory), preserves
the byte invariant of memory, and both invariants hold in the initial state,
so they hold from the all-zero initial state onward. -/
theorem C10_registers_32bit (ins : ARMInstruction) (cpu cpu' : ARMCpu)
    (hregs : ∀ (i v : Nat), cpu.registers[i]? = some v → v < 2 ^ 32)
    (hmem : ∀ b ∈ cpu.memory, b < 256)
    (hex : execute_instruction ins cpu = some cpu') :
    ((∀ (i v : Nat), cpu'.registers[i]? = some v → v < 2 ^ 32) ∧
      ∀ b ∈ cpu'.memory, b < 256) ∧
    ((∀ (i v : Nat), initCpu.registers[i]? = some v → v < 2 ^ 32) ∧
      ∀ b ∈ initCpu.memory, b < 256) := by
  obtain ⟨hr, -, hm⟩ := execute_shape ins cpu cpu' hex
  refine ⟨⟨?_, ?_⟩, ?_, ?_⟩
  · rcases hr with h | ⟨rd, v, h1, h2, hv⟩
    · rw [h]; exact hregs
    · have hv32 : v < 2 ^ 32 := by
        rcases hv with h | ⟨a, ha⟩
        · exact h
        · exact readMem32_lt hmem ha
      intro i u hu
      rw [h2, List.getElem?_set] at hu
      split at hu
      · split at hu
        · cases hu; exact hv32
        · exact Option.noConfusion hu
      · exact hregs i u hu
  · rcases hm with h | ⟨a, v, hv32, h⟩
    · rw [h]; exact hmem
    · rw [h]; exact writeMem32_bytes_lt hmem a v
  · intro i v hv
    have : v = 0 := List.eq_of_mem_replicate (List.getElem?_mem hv)
    omega
  · intro b hb
    have : b = 0 := List.eq_of_mem_replicate hb
    omega

set_option maxRecDepth 10000 in
theorem C10_witness :
    ((∀ (i v : Nat), cpuMovR0.registers[i]? = some v → v < 2 ^ 32) ∧
      ∀ b ∈ cpuMovR0.memory, b < 256) ∧
    ((∀ (i v : Nat), initCpu.registers[i]? = some v → v < 2 ^ 32) ∧
      ∀ b ∈ initCpu.memory, b < 256) := by
  have h1 : ∀ (i v : Nat), initCpu.registers[i]? = some v → v < 2 ^ 32 := by
    intro i v hv
    have : v = 0 := List.eq_of_mem_replicate (List.getElem?_mem hv)
    omega
  have h2 : ∀ b ∈ initCpu.memory, b < 256 := by
    intro b hb
    have : b = 0 := List.eq_of_mem_replicate hb
    omega
  exact C10_registers_32bit (decode 0xE3A00010) initCpu cpuMovR0 h1 h2 (by decide)

/-- C3: a load or store accesses memory exactly when the computed address
fits four bytes, the boundary being memory length minus 4; a rejected
access returns the state untouched. -/
theorem C3_memory_bounds (ins : ARMInstruction) (cpu : ARMCpu)
    (rd rn off rnv rdv : Nat)
    (hkind : ins.instruction_type = .LDR ∨ ins.instruction_type = .STR)
    (hgate : condPasses ins.condition_code cpu.cpsr.z = true)
    (hrd : ins.operands.rd = some rd) (hrn : ins.operands.rn = some rn)
    (hoff : ins.operands.offset = some off) (hrnv : cpu.registers[rn]? = some rnv)
    (hrdv : cpu.registers[rd]? = some rdv) (hrdv32 : rdv < 2 ^ 32)
    (hlen : 4 ≤ cpu.memory.length) :
    (cpu.memory.length - 4 < rnv + off → execute_instruction ins cpu = some cpu) ∧
    (rnv + off ≤ cpu.memory.length - 4 →
      (ins.instruction_type = .LDR →
        ∃ v, readMem32 cpu.memory (rnv + off) = some v ∧
          execute_instruction ins cpu =
            some { cpu with registers := cpu.registers.set rd v }) ∧
      (ins.instruction_type = .STR →
        execute_instruction ins cpu =
          some { cpu with memory := writeMem32 cpu.memory (rnv + off) rdv })) := by
  have hgate' : ¬ condPasses ins.condition_code cpu.cpsr.z = false := by simp [hgate]
  constructor
  · intro hout
    have hnb : ¬ (rnv + off < cpu.memory.length - 3) := by omega
    rcases hkind with hk | hk
    · unfold execute_instruction
      rw [if_neg hgate', hk]
      simp only [hrd, hrn, hoff, hrnv, Option.bind_eq_bind, Option.some_bind]
      rw [if_neg hnb]
    · unfold execute_instruction
      rw [if_neg hgate', hk]
      simp only [hrd, hrn, hoff, hrnv, hrdv, Option.bind_eq_bind, Option.some_bind]
      rw [if_neg hnb]
  · intro hin
    constructor
    · intro hk
      have hb : rnv + off < cpu.memory.length - 3 := by omega
      obtain ⟨b0, hb0⟩ : ∃ b, cpu.memory[rnv + off]? = some b :=
        ⟨_, List.getElem?_eq_getElem (by omega)⟩
      obtain ⟨b1, hb1⟩ : ∃ b, cpu.memory[rnv + off + 1]? = some b :=
        ⟨_, List.getElem?_eq_getElem (by omega)⟩
      obtain ⟨b2, hb2⟩ : ∃ b, cpu.memory[rnv + off + 2]? = some b :=
        ⟨_, List.getElem?_eq_getElem (by omega)⟩
      obtain ⟨b3, hb3⟩ : ∃ b, cpu.memory[rnv + off + 3]? = some b :=
        ⟨_, List.getElem?_eq_getElem (by omega)⟩
      have hread : readMem32 cpu.memory (rnv + off) =
          some (b0 + b1 * 2 ^ 8 + b2 * 2 ^ 16 + b3 * 2 ^ 24) := by
        unfold readMem32
        rw [hb0, hb1, hb2, hb3]
      refine ⟨_, hread, ?_⟩
      obtain ⟨hrdlt, -⟩ := List.getElem?_eq_some_iff.mp hrdv
      unfold execute_instruction
      rw [if_neg hgate', hk]
      simp only [hrd, hrn, hoff, hrnv, Option.bind_eq_bind, Option.some_bind]
      rw [if_pos hb]
      simp only [hread, Option.bind_eq_bind, Option.some_bind]
      unfold setReg
      rw [if_pos hrdlt]
      rfl
    · intro hk
      have hb : rnv + off < cpu.memory.length - 3 := by omega
      unfold execute_instruction
      rw [if_neg hgate', hk]
      simp only [hrd, hrn, hoff, hrnv, hrdv, Option.bind_eq_bind, Option.some_bind]
      rw [if_pos hb, if_pos hrdv32]

set_option maxRecDepth 10000 in
theorem C3_witness :
    execute_instruction (decode 0xE4110FFD) initCpu = some initCpu :=
  (C3_memory_bounds (decode 0xE4110FFD) initCpu 0 1 4093 0 0 (Or.inl (by decide))
    (by decide) (by decide) (by decide) (by decide) (by decide) (by decide)
    (by norm_num) (by decide)).1 (by decide)

end ARMSim
namespace ARMSim

theorem condRename_eq_CMP {cond : Nat} {k : InstrType}
    (h : condRename cond k = .CMP) : k = .CMP := by
  unfold condRename at h
  split at h
  · exact absurd h (by simp)
  · split at h
    · exact absurd h (by simp)
    · exact h

theorem dpKindFlagsImm_CMP {opcode : Nat} {s fl : Bool}
    (h : dpKindFlagsImm opcode s = (.CMP, fl)) : fl = true := by
  unfold dpKindFlagsImm at h
  repeat' split at h
  all_goals simp_all

theorem dpKindFlagsReg_CMP {opcode : Nat} {s fl : Bool}
    (h : dpKindFlagsReg opcode s = (.CMP, fl)) : fl = true := by
  unfold dpKindFlagsReg at h
  repeat' split at h
  all_goals simp_all

theorem dpImm_rename_CMP (cond opcode : Nat) (s : Bool)
    (h : condRename cond (dpKindFlagsImm opcode s).1 = .CMP) :
    (dpKindFlagsImm opcode s).2 = true := by
  rcases hks : dpKindFlagsImm opcode s with ⟨k, fl⟩
  rw [hks] at h
  have hk : k = .CMP := condRename_eq_CMP h
  subst hk
  exact dpKindFlagsImm_CMP hks

theorem dpReg_rename_CMP (cond opcode : Nat) (s : Bool)
    (h : condRename cond (dpKindFlagsReg opcode s).1 = .CMP) :
    (dpKindFlagsReg opcode s).2 = true := by
  rcases hks : dpKindFlagsReg opcode s with ⟨k, fl⟩
  rw [hks] at h
  have hk : k = .CMP := condRename_eq_CMP h
  subst hk
  exact dpKindFlagsReg_CMP hks

theorem shiftKind_ne_CMP (b : Nat) : shiftKind b ≠ .CMP := by
  unfold shiftKind
  repeat' split
  all_goals simp

theorem decode_CMP_set_flags (w : Nat) :
    (decode w).instruction_type = .CMP → (decode w).set_flags = true := by
  simp only [decode]
  repeat' split
  all_goals intro h
  all_goals dsimp only at h ⊢
  all_goals
    first
    | exact dpImm_rename_CMP _ _ _ h
    | exact dpReg_rename_CMP _ _ _ h
    | exact absurd h (shiftKind_ne_CMP _)
    | (simp at h)

/-- C5: the flags after execution differ from before only when the record has
set_flags true or its kind is CMP, and the decoder always forces set_flags on
CMP records. -/
theorem C5_flag_discipline :
    (∀ (ins : ARMInstruction) (cpu cpu' : ARMCpu), ins.set_flags = false →
      ins.instruction_type ≠ .CMP → execute_instruction ins cpu = some cpu' →
        cpu'.cpsr = cpu.cpsr) ∧
    (∀ w : Nat, (decode w).instruction_type = .CMP → (decode w).set_flags = true) := by
  constructor
  · intro ins cpu cpu' hsf hk hex
    rcases (execute_shape ins cpu cpu' hex).2.1 with h | h | h
    · exact h
    · rw [hsf] at h; exact Bool.noConfusion h
    · exact absurd h hk
  · exact decode_CMP_set_flags

set_option maxRecDepth 10000 in
theorem C5_witness :
    cpuMovR0.cpsr = initCpu.cpsr ∧ (decode 0xE3410001).set_flags = true :=
  ⟨C5_flag_discipline.1 (decode 0xE3A00010) initCpu cpuMovR0 (by decide) (by decide)
      (by decide),
   C5_flag_discipline.2 0xE3410001 (by decide)⟩

end ARMSim
namespace ARMSim

/-- Register-index fields of the operand dictionary are in range when present. -/
def optReg16p (o : Option Nat) : Prop := ∀ i, o = some i → i < 16

/-- The operand keys each executor arm reads from the dictionary. -/
def kindNeedsP (k : InstrType) (ops : Operands) : Prop :=
  match k with
  | .MOV | .LSL | .LSR | .ASR | .ROR => ops.rd.isSome = true
  | .ADD | .SUB | .ADDEQ | .SUBNE | .AND | .ORR =>
      ops.rd.isSome = true ∧ ops.rn.isSome = true
  | .CMP => ops.rn.isSome = true
  | .MUL => ops.rd.isSome = true ∧ ops.rm.isSome = true ∧ ops.rs.isSome = true
  | .LDR | .STR => ops.rd.isSome = true ∧ ops.rn.isSome = true ∧ ops.offset.isSome = true
  | .B | .BL => ops.offset.isSome = true
  | .UNKNOWN | .UNKNOWN_DATA_PROCESSING_IMM | .UNKNOWN_DATA_PROCESSING_REG => True

/-- Well-formed instruction record: register fields in 0..15 and the operand
keys required by the record's kind present. -/
def WFInstr (ins : ARMInstruction) : Prop :=
  optReg16p ins.operands.rd ∧ optReg16p ins.operands.rn ∧ optReg16p ins.operands.rm ∧
    optReg16p ins.operands.rs ∧ kindNeedsP ins.instruction_type ins.operands

theorem dpKindFlagsImm_mem (opcode : Nat) (s : Bool) :
    (dpKindFlagsImm opcode s).1 = .ADD ∨ (dpKindFlagsImm opcode s).1 = .SUB ∨
    (dpKindFlagsImm opcode s).1 = .MOV ∨ (dpKindFlagsImm opcode s).1 = .CMP ∨
    (dpKindFlagsImm opcode s).1 = .AND ∨ (dpKindFlagsImm opcode s).1 = .ORR ∨
    (dpKindFlagsImm opcode s).1 = .UNKNOWN_DATA_PROCESSING_IMM ∨
    (dpKindFlagsImm opcode s).1 = .UNKNOWN_DATA_PROCESSING_REG := by
  unfold dpKindFlagsImm
  repeat' split
  all_goals simp

theorem dpKindFlagsReg_mem (opcode : Nat) (s : Bool) :
    (dpKindFlagsReg opcode s).1 = .ADD ∨ (dpKindFlagsReg opcode s).1 = .SUB ∨
    (dpKindFlagsReg opcode s).1 = .MOV ∨ (dpKindFlagsReg opcode s).1 = .CMP ∨
    (dpKindFlagsReg opcode s).1 = .AND ∨ (dpKindFlagsReg opcode s).1 = .ORR ∨
    (dpKindFlagsReg opcode s).1 = .UNKNOWN_DATA_PROCESSING_IMM ∨
    (dpKindFlagsReg opcode s).1 = .UNKNOWN_DATA_PROCESSING_REG := by
  unfold dpKindFlagsReg
  repeat' split
  all_goals simp

theorem kindNeedsP_condRename_dp (cond : Nat) (k : InstrType) (ops : Operands)
    (hk : k = .ADD ∨ k = .SUB ∨ k = .MOV ∨ k = .CMP ∨ k = .AND ∨ k = .ORR ∨
      k = .UNKNOWN_DATA_PROCESSING_IMM ∨ k = .UNKNOWN_DATA_PROCESSING_REG)
    (h1 : ops.rd.isSome = true) (h2 : ops.rn.isSome = true) :
    kindNeedsP (condRename cond k) ops := by
  unfold condRename
  rcases hk with rfl | rfl | rfl | rfl | rfl | rfl | rfl | rfl <;>
    (repeat' split) <;> simp_all [kindNeedsP]

theorem kindNeedsP_shiftKind (b : Nat) (ops : Operands) (h1 : ops.rd.isSome = true) :
    kindNeedsP (shiftKind b) ops := by
  unfold shiftKind
  by_cases hb0 : b = 0
  · simp [hb0, kindNeedsP, h1]
  · by_cases hb1 : b = 1
    · simp [hb0, hb1, kindNeedsP, h1]
    · by_cases hb2 : b = 2
      · simp [hb0, hb1, hb2, kindNeedsP, h1]
      · simp [hb0, hb1, hb2, kindNeedsP, h1]

/-- Every record produced by decode is well-formed. -/
theorem decode_WF (w : Nat) : WFInstr (decode w) := by
  simp only [decode]
  repeat' split
  all_goals
    refine ⟨?_, ?_, ?_, ?_, ?_⟩ <;>
      first
      | (intro i hi; exact Option.noConfusion hi)
      | (intro i hi; injection hi with hh; omega)
      | exact kindNeedsP_condRename_dp _ _ _ (dpKindFlagsImm_mem _ _) rfl rfl
      | exact kindNeedsP_condRename_dp _ _ _ (dpKindFlagsReg_mem _ _) rfl rfl
      | exact kindNeedsP_shiftKind _ _ rfl
      | simp [kindNeedsP]

theorem isSome_ex {o : Option Nat} (h : o.isSome = true) : ∃ i, o = some i :=
  Option.isSome_iff_exists.mp h

/-- The operand2 resolver never fails on a record whose register fields are
in range, given a 16-entry register file. -/
theorem getOperand2_total (ins : ARMInstruction) (regs : List Nat)
    (hlen : regs.length = 16)
    (hrm : optReg16p ins.operands.rm) (hrs : optReg16p ins.operands.rs) :
    ∃ v, getOperand2 ins regs = some v := by
  unfold getOperand2
  cases hop2 : ins.operands.operand2 with
  | some v => exact ⟨v, rfl⟩
  | none =>
    cases hrmo : ins.operands.rm with
    | none => exact ⟨0, rfl⟩
    | some rm =>
      have hrm16 := hrm rm hrmo
      obtain ⟨v, hv⟩ : ∃ v, regs[rm]? = some v :=
        ⟨_, List.getElem?_eq_getElem (by omega)⟩
      dsimp only
      rw [hv]
      cases hst : ins.operands.shift_type with
      | none => exact ⟨v, rfl⟩
      | some st =>
        cases hsa : ins.operands.shift_amount with
        | some a =>
          dsimp only
          repeat' split
          all_goals exact ⟨_, rfl⟩
        | none =>
          cases hrso : ins.operands.rs with
          | none =>
            dsimp only
            repeat' split
            all_goals exact ⟨_, rfl⟩
          | some rs =>
            have hrs16 := hrs rs hrso
            obtain ⟨a, ha⟩ : ∃ a, regs[rs]? = some a :=
              ⟨_, List.getElem?_eq_getElem (by omega)⟩
            dsimp only
            rw [ha]
            dsimp only
            repeat' split
            all_goals exact ⟨_, rfl⟩

/-- The executor never fails on a well-formed record over a state with 16
registers all below 2^32. -/
theorem execute_total (ins : ARMInstruction) (cpu : ARMCpu)
    (hwf : WFInstr ins)
    (hlen : cpu.registers.length = 16)
    (hregs : ∀ (i v : Nat), cpu.registers[i]? = some v → v < 2 ^ 32) :
    ∃ cpu', execute_instruction ins cpu = some cpu' := by
  obtain ⟨hrd16, hrn16, hrm16, hrs16, hneeds⟩ := hwf
  unfold execute_instruction
  by_cases hg : condPasses ins.condition_code cpu.cpsr.z = false
  · rw [if_pos hg]; exact ⟨cpu, rfl⟩
  rw [if_neg hg]
  cases hty : ins.instruction_type <;> rw [hty] at hneeds <;>
    simp only [kindNeedsP] at hneeds <;> dsimp only
  -- MOV
  · obtain ⟨rd, hrd⟩ := isSome_ex hneeds
    obtain ⟨op2, hop2⟩ := getOperand2_total ins cpu.registers hlen hrm16 hrs16
    simp only [hrd, hop2, Option.bind_eq_bind, Option.some_bind]
    unfold setReg
    rw [if_pos (show rd < cpu.registers.length by have := hrd16 rd hrd; omega)]
    exact ⟨_, rfl⟩
  -- ADD
  · obtain ⟨rd, hrd⟩ := isSome_ex hneeds.1
    obtain ⟨rn, hrn⟩ := isSome_ex hneeds.2
    obtain ⟨op2, hop2⟩ := getOperand2_total ins cpu.registers hlen hrm16 hrs16
    obtain ⟨rnv, hrnv⟩ : ∃ v, cpu.registers[rn]? = some v :=
      ⟨_, List.getElem?_eq_getElem (show rn < cpu.registers.length by
        have := hrn16 rn hrn; omega)⟩
    simp only [hrd, hrn, hop2, hrnv, Option.bind_eq_bind, Option.some_bind]
    unfold setReg
    rw [if_pos (show rd < cpu.registers.length by have := hrd16 rd hrd; omega)]
    exact ⟨_, rfl⟩
  -- SUB
  · obtain ⟨rd, hrd⟩ := isSome_ex hneeds.1
    obtain ⟨rn, hrn⟩ := isSome_ex hneeds.2
    obtain ⟨op2, hop2⟩ := getOperand2_total ins cpu.registers hlen hrm16 hrs16
    obtain ⟨rnv, hrnv⟩ : ∃ v, cpu.registers[rn]? = some v :=
      ⟨_, List.getElem?_eq_getElem (show rn < cpu.registers.length by
        have := hrn16 rn hrn; omega)⟩
    simp only [hrd, hrn, hop2, hrnv, Option.bind_eq_bind, Option.some_bind]
    unfold setReg
    rw [if_pos (show rd < cpu.registers.length by have := hrd16 rd hrd; omega)]
    exact ⟨_, rfl⟩
  -- ADDEQ
  · obtain ⟨rd, hrd⟩ := isSome_ex hneeds.1
    obtain ⟨rn, hrn⟩ := isSome_ex hneeds.2
    obtain ⟨op2, hop2⟩ := getOperand2_total ins cpu.registers hlen hrm16 hrs16
    obtain ⟨rnv, hrnv⟩ : ∃ v, cpu.registers[rn]? = some v :=
      ⟨_, List.getElem?_eq_getElem (show rn < cpu.registers.length by
        have := hrn16 rn hrn; omega)⟩
    simp only [hrd, hrn, hop2, hrnv, Option.bind_eq_bind, Option.some_bind]
    unfold setReg
    rw [if_pos (show rd < cpu.registers.length by have := hrd16 rd hrd; omega)]
    exact ⟨_, rfl⟩
  -- SUBNE
  · obtain ⟨rd, hrd⟩ := isSome_ex hneeds.1
    obtain ⟨rn, hrn⟩ := isSome_ex hneeds.2
    obtain ⟨op2, hop2⟩ := getOperand2_total ins cpu.registers hlen hrm16 hrs16
    obtain ⟨rnv, hrnv⟩ : ∃ v, cpu.registers[rn]? = some v :=
      ⟨_, List.getElem?_eq_getElem (show rn < cpu.registers.length by
        have := hrn16 rn hrn; omega)⟩
    simp only [hrd, hrn, hop2, hrnv, Option.bind_eq_bind, Option.some_bind]
    unfold setReg
    rw [if_pos (show rd < cpu.registers.length by have := hrd16 rd hrd; omega)]
    exact ⟨_, rfl⟩
  -- CMP
  · obtain ⟨rn, hrn⟩ := isSome_ex hneeds
    obtain ⟨op2, hop2⟩ := getOperand2_total ins cpu.registers hlen hrm16 hrs16
    obtain ⟨rnv, hrnv⟩ : ∃ v, cpu.registers[rn]? = some v :=
      ⟨_, List.getElem?_eq_getElem (show rn < cpu.registers.length by
        have := hrn16 rn hrn; omega)⟩
    simp only [hrn, hop2, hrnv, Option.bind_eq_bind, Option.some_bind]
    exact ⟨_, rfl⟩
  -- AND
  · obtain ⟨rd, hrd⟩ := isSome_ex hneeds.1
    obtain ⟨rn, hrn⟩ := isSome_ex hneeds.2
    obtain ⟨op2, hop2⟩ := getOperand2_total ins cpu.registers hlen hrm16 hrs16
    obtain ⟨rnv, hrnv⟩ : ∃ v, cpu.registers[rn]? = some v :=
      ⟨_, List.getElem?_eq_getElem (show rn < cpu.registers.length by
        have := hrn16 rn hrn; omega)⟩
    simp only [hrd, hrn, hop2, hrnv, Option.bind_eq_bind, Option.some_bind]
    unfold setReg
    rw [if_pos (show rd < cpu.registers.length by have := hrd16 rd hrd; omega)]
    exact ⟨_, rfl⟩
  -- ORR
  · obtain ⟨rd, hrd⟩ := isSome_ex hneeds.1
    obtain ⟨rn, hrn⟩ := isSome_ex hneeds.2
    obtain ⟨op2, hop2⟩ := getOperand2_total ins cpu.registers hlen hrm16 hrs16
    obtain ⟨rnv, hrnv⟩ : ∃ v, cpu.registers[rn]? = some v :=
      ⟨_, List.getElem?_eq_getElem (show rn < cpu.registers.length by
        have := hrn16 rn hrn; omega)⟩
    simp only [hrd, hrn, hop2, hrnv, Option.bind_eq_bind, Option.some_bind]
    unfold setReg
    rw [if_pos (show rd < cpu.registers.length by have := hrd16 rd hrd; omega)]
    exact ⟨_, rfl⟩
  -- MUL
  · obtain ⟨rd, hrd⟩ := isSome_ex hneeds.1
    obtain ⟨rm, hrm'⟩ := isSome_ex hneeds.2.1
    obtain ⟨rs, hrs'⟩ := isSome_ex hneeds.2.2
    obtain ⟨rmv, hrmv⟩ : ∃ v, cpu.registers[rm]? = some v :=
      ⟨_, List.getElem?_eq_getElem (show rm < cpu.registers.length by
        have := hrm16 rm hrm'; omega)⟩
    obtain ⟨rsv, hrsv⟩ : ∃ v, cpu.registers[rs]? = some v :=
      ⟨_, List.getElem?_eq_getElem (show rs < cpu.registers.length by
        have := hrs16 rs hrs'; omega)⟩
    simp only [hrd, hrm', hrs', hrmv, hrsv, Option.bind_eq_bind, Option.some_bind]
    unfold setReg
    rw [if_pos (show rd < cpu.registers.length by have := hrd16 rd hrd; omega)]
    exact ⟨_, rfl⟩
  -- LDR
  · obtain ⟨rd, hrd⟩ := isSome_ex hneeds.1
    obtain ⟨rn, hrn⟩ := isSome_ex hneeds.2.1
    obtain ⟨off, hoff⟩ := isSome_ex hneeds.2.2
    obtain ⟨rnv, hrnv⟩ : ∃ v, cpu.registers[rn]? = some v :=
      ⟨_, List.getElem?_eq_getElem (show rn < cpu.registers.length by
        have := hrn16 rn hrn; omega)⟩
    simp only [hrd, hrn, hoff, hrnv, Option.bind_eq_bind, Option.some_bind]
    by_cases hb : rnv + off < cpu.memory.length - 3
    · rw [if_pos hb]
      obtain ⟨b0, hb0⟩ : ∃ b, cpu.memory[rnv + off]? = some b :=
        ⟨_, List.getElem?_eq_getElem (by omega)⟩
      obtain ⟨b1, hb1⟩ : ∃ b, cpu.memory[rnv + off + 1]? = some b :=
        ⟨_, List.getElem?_eq_getElem (by omega)⟩
      obtain ⟨b2, hb2⟩ : ∃ b, cpu.memory[rnv + off + 2]? = some b :=
        ⟨_, List.getElem?_eq_getElem (by omega)⟩
      obtain ⟨b3, hb3⟩ : ∃ b, cpu.memory[rnv + off + 3]? = some b :=
        ⟨_, List.getElem?_eq_getElem (by omega)⟩
      have hread : readMem32 cpu.memory (rnv + off) =
          some (b0 + b1 * 2 ^ 8 + b2 * 2 ^ 16 + b3 * 2 ^ 24) := by
        unfold readMem32
        rw [hb0, hb1, hb2, hb3]
      simp only [hread, Option.bind_eq_bind, Option.some_bind]
      unfold setReg
      rw [if_pos (show rd < cpu.registers.length by have := hrd16 rd hrd; omega)]
      exact ⟨_, rfl⟩
    · rw [if_neg hb]
      exact ⟨cpu, rfl⟩
  -- STR
  · obtain ⟨rd, hrd⟩ := isSome_ex hneeds.1
    obtain ⟨rn, hrn⟩ := isSome_ex hneeds.2.1
    obtain ⟨off, hoff⟩ := isSome_ex hneeds.2.2
    obtain ⟨rnv, hrnv⟩ : ∃ v, cpu.registers[rn]? = some v :=
      ⟨_, List.getElem?_eq_getElem (show rn < cpu.registers.length by
        have := hrn16 rn hrn; omega)⟩
    obtain ⟨rdv, hrdv⟩ : ∃ v, cpu.registers[rd]? = some v :=
      ⟨_, List.getElem?_eq_getElem (show rd < cpu.registers.length by
        have := hrd16 rd hrd; omega)⟩
    simp only [hrd, hrn, hoff, hrnv, hrdv, Option.bind_eq_bind, Option.some_bind]
    by_cases hb : rnv + off < cpu.memory.length - 3
    · rw [if_pos hb, if_pos (hregs rd rdv hrdv)]
      exact ⟨_, rfl⟩
    · rw [if_neg hb]
      exact ⟨cpu, rfl⟩
  -- B
  · obtain ⟨off, hoff⟩ := isSome_ex hneeds
    simp only [hoff, Option.bind_eq_bind, Option.some_bind]
    exact ⟨_, rfl⟩
  -- BL
  · obtain ⟨off, hoff⟩ := isSome_ex hneeds
    simp only [hoff, Option.bind_eq_bind, Option.some_bind]
    exact ⟨_, rfl⟩
  -- LSL
  · obtain ⟨rd, hrd⟩ := isSome_ex hneeds
    obtain ⟨op2, hop2⟩ := getOperand2_total ins cpu.registers hlen hrm16 hrs16
    simp only [hrd, hop2, Option.bind_eq_bind, Option.some_bind]
    unfold setReg
    rw [if_pos (show rd < cpu.registers.length by have := hrd16 rd hrd; omega)]
    exact ⟨_, rfl⟩
  -- LSR
  · obtain ⟨rd, hrd⟩ := isSome_ex hneeds
    obtain ⟨op2, hop2⟩ := getOperand2_total ins cpu.registers hlen hrm16 hrs16
    simp only [hrd, hop2, Option.bind_eq_bind, Option.some_bind]
    unfold setReg
    rw [if_pos (show rd < cpu.registers.length by have := hrd16 rd hrd; omega)]
    exact ⟨_, rfl⟩
  -- ASR
  · obtain ⟨rd, hrd⟩ := isSome_ex hneeds
    obtain ⟨op2, hop2⟩ := getOperand2_total ins cpu.registers hlen hrm16 hrs16
    simp only [hrd, hop2, Option.bind_eq_bind, Option.some_bind]
    unfold setReg
    rw [if_pos (show rd < cpu.registers.length by have := hrd16 rd hrd; omega)]
    exact ⟨_, rfl⟩
  -- ROR
  · obtain ⟨rd, hrd⟩ := isSome_ex hneeds
    obtain ⟨op2, hop2⟩ := getOperand2_total ins cpu.registers hlen hrm16 hrs16
    simp only [hrd, hop2, Option.bind_eq_bind, Option.some_bind]
    unfold setReg
    rw [if_pos (show rd < cpu.registers.length by have := hrd16 rd hrd; omega)]
    exact ⟨_, rfl⟩
  -- UNKNOWN
  · exact ⟨cpu, rfl⟩
  -- UNKNOWN_DATA_PROCESSING_IMM
  · exact ⟨cpu, rfl⟩
  -- UNKNOWN_DATA_PROCESSING_REG
  · exact ⟨cpu, rfl⟩

/-- C9: the executor never raises on any decoded record over a reachable
state: every operand key a kind's arm reads is present, every register index
is below 16, and memory accesses are guarded, so execution always produces a
successor state. -/
theorem C9_no_crash (w : Nat) (cpu : ARMCpu)
    (hlen : cpu.registers.length = 16)
    (hregs : ∀ (i v : Nat), cpu.registers[i]? = some v → v < 2 ^ 32) :
    ∃ cpu', execute_instruction (decode w) cpu = some cpu' := by
  have hwf := decode_WF w
  obtain ⟨h1, h2, h3, h4, h5⟩ := hwf
  exact execute_total (decode w) cpu ⟨h1, h2, h3, h4, h5⟩ hlen hregs

theorem C9_witness :
    ∃ cpu', execute_instruction (decode 0xE3A00010) initCpu = some cpu' := by
  have hregs : ∀ (i v : Nat), initCpu.registers[i]? = some v → v < 2 ^ 32 := by
    intro i v hv
    have : v = 0 := List.eq_of_mem_replicate (List.getElem?_mem hv)
    omega
  exact C9_no_crash 0xE3A00010 initCpu (by decide) hregs

end ARMSim
